import Mathlib

/-!
Verification development for the Pelican Wireless thermostat control panel
(`pelican-wireless-v3.py`, with `pelican-wireless-v2.py` as the legacy variant).

The core request/response pipeline is shallowly embedded here:

* Python string primitives (`strip`, `lower`, `capitalize`, substring test,
  left-justification) are modelled on `List Char` / `String`; they agree with
  CPython on the ASCII data this program handles.
* `xml.etree.ElementTree.fromstring` is modelled by a recursive-descent parser
  `fromstring` over the element subset the vendor API uses (tags and text; no
  attributes, entities, comments or processing instructions).  Its success and
  failure behaviour matches ElementTree on such inputs: a document must consist
  of exactly one well-formed element tree with nothing but whitespace around it
  ("junk after document element" and mismatched or unclosed tags are parse
  errors).  `Element.text` is the text before the first child (`None` is
  represented by `""`); tail text is not retained because the program never
  reads it.
* `safe_parse_xml`, `extract_values_from_xml`, `_format_data_for_display`,
  `APIInvoker.build_url` and `APIInvoker.invoke` are translated line by line
  from the source.
* `urllib.parse.quote_plus` / `unquote_plus` are modelled including UTF-8
  byte-level percent-encoding.  The decoder's handling of *invalid* escape
  sequences approximates CPython's `errors="replace"` (one U+FFFD per offending
  byte); the round-trip theorems only ever exercise valid sequences, which are
  decoded exactly as CPython does.
-/

namespace Pelican

/-! ## Python string primitives -/

/-- The whitespace characters stripped by Python's `str.strip()` (ASCII part). -/
def pySpace (c : Char) : Bool :=
  c = ' ' || c = '\t' || c = '\n' || c = '\x0d' || c = '\x0b' || c = '\x0c'

/-- Python `str.strip()` on a character list. -/
def pyStripChars (cs : List Char) : List Char :=
  ((cs.dropWhile pySpace).reverse.dropWhile pySpace).reverse

/-- Python `str.strip()`. -/
def pyStrip (s : String) : String := ⟨pyStripChars s.data⟩

/-- Python `str.lower()` (ASCII; the program's tags and field names are ASCII). -/
def pyLower (s : String) : String := ⟨s.data.map Char.toLower⟩

/-- Python `str.capitalize()` (ASCII): first character upper-cased, rest lower-cased. -/
def pyCapitalize (s : String) : String :=
  match s.data with
  | [] => ""
  | c :: rest => ⟨c.toUpper :: rest.map Char.toLower⟩

/-- Python format specifier `{s:n}`: left-justify to minimum width `n`. -/
def pyLjust (n : Nat) (s : String) : String :=
  s ++ ⟨List.replicate (n - s.data.length) ' '⟩

/-- Python `x[:n]` for strings. -/
def pyTake (n : Nat) (s : String) : String := ⟨s.data.take n⟩

/-- Contiguous-substring test on character lists (Python's `needle in hay`). -/
def strContainsCs (needle : List Char) : List Char → Bool
  | [] => needle.isEmpty
  | c :: rest => needle.isPrefixOf (c :: rest) || strContainsCs needle rest

/-- Python `needle in hay` for strings. -/
def inStr (needle hay : String) : Bool := strContainsCs needle.data hay.data

/-- Python `sep.join(items)`. -/
def strJoin (sep : String) : List String → String
  | [] => ""
  | [x] => x
  | x :: y :: rest => x ++ sep ++ strJoin sep (y :: rest)

/-! ## XML element model (`xml.etree.ElementTree`) -/

/-- An ElementTree element: tag, text (text before the first child; `None`
is represented by `""`, which is how the program reads it), and children.
Tail text is dropped because `extract_values_from_xml` never reads it. -/
inductive Element where
  | mk (tag : String) (text : String) (children : List Element)

def Element.tag : Element → String
  | .mk t _ _ => t

def Element.text : Element → String
  | .mk _ x _ => x

def Element.children : Element → List Element
  | .mk _ _ cs => cs

/-- A name character for the tag subset this API emits. -/
def isNameChar (c : Char) : Bool :=
  c.isAlphanum || c = '_' || c = '-' || c = '.'

/-- Read a non-empty run of name characters. -/
def readName (cs : List Char) : Option (List Char × List Char) :=
  let nm := cs.takeWhile isNameChar
  if nm.isEmpty then none else some (nm, cs.drop nm.length)

/-- Split off the run of characters before the next `<`. -/
def spanText (cs : List Char) : List Char × List Char :=
  (cs.takeWhile (fun c => c ≠ '<'), cs.dropWhile (fun c => c ≠ '<'))

mutual

/-- Parse one element `<tag>text children…</tag>`; f(uel decreases on each
recursive call, and `fromstring` supplies fuel no smaller than the input length,
which is always sufficient since every call consumes input). -/
def parseElement : Nat → List Char → Option (Element × List Char)
  | 0, _ => none
  | fuel + 1, cs =>
    match cs with
    | '<' :: rest =>
      match readName rest with
      | some (nm, '>' :: rest2) =>
        let (txt, rest3) := spanText rest2
        match parseContent fuel nm rest3 with
        | some (kids, rest4) => some (.mk ⟨nm⟩ ⟨txt⟩ kids, rest4)
        | none => none
      | _ => none
    | _ => none

/-- Parse the children of an element with tag `nm` up to and including the
matching close tag `</nm>`; tail text after each child is consumed and dropped. -/
def parseContent : Nat → List Char → List Char → Option (List Element × List Char)
  | 0, _, _ => none
  | fuel + 1, nm, cs =>
    match cs with
    | '<' :: '/' :: rest =>
      match readName rest with
      | some (nm2, '>' :: rest2) => if nm2 = nm then some ([], rest2) else none
      | _ => none
    | '<' :: rest =>
      match parseElement fuel ('<' :: rest) with
      | some (child, restA) =>
        let (_tail, restB) := spanText restA
        match parseContent fuel nm restB with
        | some (kids, restC) => some (child :: kids, restC)
        | none => none
      | none => none
    | _ => none

end

/-- `xml.etree.ElementTree.fromstring` on the element subset: exactly one
well-formed element tree, optionally surrounded by whitespace; anything else
(junk after the document element, unclosed or mismatched tags, non-tag
content) is a `ParseError`. -/
def fromstring (cs : List Char) : Except String Element :=
  let cs := cs.dropWhile pySpace
  match parseElement (cs.length + 1) cs with
  | some (e, rest) => if rest.dropWhile pySpace = [] then .ok e else .error "ParseError"
  | none => .error "ParseError"

/-! ## `safe_parse_xml` (pelican-wireless-v3.py lines 155-172) -/

/-- `safe_parse_xml`: strip the body; raise `ParseError` (`"Not XML content"`)
if it does not start with `<`; otherwise try a direct parse and, on failure,
wrap the body in a synthetic `<root>` element and retry. -/
def safe_parse_xml (s : String) : Except String Element :=
  let t := pyStripChars s.data
  if "<".data.isPrefixOf t = false then .error "Not XML content"
  else
    match fromstring t with
    | .ok root => .ok root
    | .error _ => fromstring ("<root>".data ++ t ++ "</root>".data)

/-! ## `extract_values_from_xml` (pelican-wireless-v3.py lines 175-193) -/

/-- Value of one key in the flattened map: a scalar for a tag seen once, an
ordered list once the tag repeats. -/
inductive FieldValue where
  | scalar (s : String)
  | vlist (ss : List String)
deriving DecidableEq

/-- The flattened tag→value map (a Python `dict`, i.e. insertion-ordered with
unique keys; updating an existing key keeps its position). -/
abbrev XData := List (String × FieldValue)

/-- First-match association-list lookup (Python `data[k]` / `k in data`). -/
def lookupKey : XData → String → Option FieldValue
  | [], _ => none
  | (k, v) :: rest, key => if k = key then some v else lookupKey rest key

/-- One step of `extract_values_from_xml`'s dict update:
`data[tag].append(text)` when the entry is already a list, promotion
`data[tag] = [data[tag], text]` on the second occurrence, plain insertion
otherwise.  The updated key keeps its dict position. -/
def updateData : XData → String → String → XData
  | [], tag, text => [(tag, .scalar text)]
  | (k, v) :: rest, tag, text =>
    if k = tag then
      match v with
      | .scalar s => (k, .vlist [s, text]) :: rest
      | .vlist ss => (k, .vlist (ss ++ [text])) :: rest
    else (k, v) :: updateData rest tag text

mutual

/-- `Element.iter()`: the element itself followed by all descendants in
document (depth-first preorder) order. -/
def iterElems : Element → List Element
  | .mk t x cs => .mk t x cs :: iterList cs

def iterList : List Element → List Element
  | [] => []
  | e :: es => iterElems e ++ iterList es

end

/-- One loop iteration of `extract_values_from_xml`: lowercase the tag, strip
the text (`None` reads as `""`), skip empty tags, update the dict. -/
def extractStep (data : XData) (e : Element) : XData :=
  let tag := pyLower e.tag
  let text := pyStrip e.text
  if tag = "" then data else updateData data tag text

/-- `extract_values_from_xml`: walk every element of the tree (the root
included) and collect the flattened map. -/
def extract_values_from_xml (root : Element) : XData :=
  (iterElems root).foldl extractStep []

/-- The spec's `parse`: `safe_parse_xml` followed by `extract_values_from_xml`
(the composition used at every call site of the pipeline). -/
def parse (s : String) : Except String XData :=
  (safe_parse_xml s).map extract_values_from_xml

/-! ## `_format_data_for_display` (pelican-wireless-v3.py lines 623-669) -/

/-- Python `str()` of a list of strings (for strings without quote or escape
characters, which is all this program can render): `['x', 'y']`. -/
def pyListRepr (ss : List String) : String :=
  "[" ++ strJoin ", " (ss.map (fun s => "'" ++ s ++ "'")) ++ "]"

/-- How an f-string renders `data.get(key)`: `None` when the key is absent,
the string itself for a scalar, the Python list repr for a list. -/
def pyFormatVal : Option FieldValue → String
  | none => "None"
  | some (.scalar s) => s
  | some (.vlist ss) => pyListRepr ss

/-- The local predicate `has(key)` of `_format_data_for_display`:
`key in data and data[key] not in (None, "")` (a list value is never equal
to `None` or `""`). -/
def hasField (data : XData) (key : String) : Bool :=
  match lookupKey data key with
  | some (.scalar s) => s ≠ ""
  | some (.vlist _) => true
  | none => false

/-- The known-field section of `_format_data_for_display`: the sequence of
`if` statements appending one line each, in source order.  `rv` is the
already-lowercased requested-value string; `"x" in rv` is Python substring
containment. -/
def knownLines (data : XData) (rv : String) : List String :=
  (if inStr "description" rv && hasField data "description" then
    ["Description:    " ++ pyFormatVal (lookupKey data "description")] else []) ++
  (if inStr "system" rv && hasField data "system" then
    ["System:         " ++ pyFormatVal (lookupKey data "system")] else []) ++
  (if inStr "fan" rv && hasField data "fan" then
    ["Fan:            " ++ pyFormatVal (lookupKey data "fan")] else []) ++
  (if inStr "runstatus" rv && hasField data "runstatus" then
    ["Run Status:     " ++ pyFormatVal (lookupKey data "runstatus")] else []) ++
  (if inStr "temperature" rv && hasField data "temperature" then
    ["Temperature:    " ++ pyFormatVal (lookupKey data "temperature") ++ "°"] else []) ++
  (if inStr "humidity" rv && hasField data "humidity" then
    ["Humidity:       " ++ pyFormatVal (lookupKey data "humidity") ++ "%"] else []) ++
  (if (lookupKey data "slaves").isSome then
    ["Discharge Temp: " ++ pyFormatVal (lookupKey data "value") ++ "°"] else []) ++
  (if inStr "heatsetting" rv && hasField data "heatsetting" then
    ["Heat Setting:   " ++ pyFormatVal (lookupKey data "heatsetting") ++ "°"] else []) ++
  (if inStr "coolsetting" rv && hasField data "coolsetting" then
    ["Cool Setting:   " ++ pyFormatVal (lookupKey data "coolsetting") ++ "°"] else []) ++
  (if inStr "frontkeypad" rv && hasField data "frontkeypad" then
    ["FrontKeypad:    " ++ pyFormatVal (lookupKey data "frontkeypad")] else []) ++
  (if inStr "schedule" rv && hasField data "schedule" then
    ["Schedule:       " ++ pyFormatVal (lookupKey data "schedule")] else []) ++
  (if inStr "serialno" rv && hasField data "serialno" then
    ["SerialNo:       " ++ pyFormatVal (lookupKey data "serialno")] else []) ++
  (if (lookupKey data "message").isSome then
    ["Message:        " ++ pyFormatVal (lookupKey data "message")] else [])

/-- Lexicographic (code-point) comparison of character lists: Python's `<=`
on strings, as used by `sorted`. -/
def lexLe : List Char → List Char → Bool
  | [], _ => true
  | _ :: _, [] => false
  | a :: as, b :: bs =>
    if a.toNat < b.toNat then true
    else if b.toNat < a.toNat then false
    else lexLe as bs

/-- Key order for `sorted(data.items())`: Python compares the tuples, and with
distinct keys (a dict never repeats one) only the keys are ever compared. -/
def itemLe (p q : String × FieldValue) : Prop := lexLe p.1.data q.1.data = true

instance : DecidableRel itemLe := fun p q => by unfold itemLe; infer_instance

/-- `sorted(data.items())`: any stable sort by key; insertion sort is one. -/
def pySortItems (data : XData) : XData := List.insertionSort itemLe data

/-- The fallback rendering of one `(k, v)` item:
`f"{k.capitalize():15}: {disp}"` where `disp` truncates to 300 characters and
appends an ellipsis unless `v` is a string shorter than 300 characters. -/
def fallbackLine (p : String × FieldValue) : String :=
  pyLjust 15 (pyCapitalize p.1) ++ ": " ++
  (match p.2 with
   | .scalar s => if s.data.length < 300 then s else pyTake 300 s ++ "..."
   | .vlist ss => pyTake 300 (pyListRepr ss) ++ "...")

/-- `_format_data_for_display` before the final `"\n".join`: the known-field
lines; if none matched, the sorted raw dictionary dump, or the literal
"No data returned by server." when the dictionary is empty. -/
def formatLines (data : XData) (requested_values : String) : List String :=
  let rv := pyLower requested_values
  let lines := knownLines data rv
  if lines = [] then
    if data = [] then ["No data returned by server."]
    else (pySortItems data).map fallbackLine
  else lines

/-- `_format_data_for_display` itself (`"\n".join(lines)`). -/
def format_data_for_display (data : XData) (requested_values : String) : String :=
  strJoin "\n" (formatLines data requested_values)

/-! ## `APIInvoker.build_url` / `invoke` (pelican-wireless-v3.py lines 91-147)
and `urllib.parse.quote_plus` / `unquote_plus` -/

/-- The characters `urllib.parse.quote` never encodes (its `ALWAYS_SAFE` set:
ASCII letters, digits, and `_.-~`; `quote_plus` passes `safe=''`). -/
def alwaysSafe (c : Char) : Bool :=
  c.isAlpha || c.isDigit || c = '_' || c = '.' || c = '-' || c = '~'

/-- The UTF-8 bytes of one scalar value (as `Nat`s below 256). -/
def utf8Bytes (c : Char) : List Nat :=
  let n := c.toNat
  if n < 0x80 then [n]
  else if n < 0x800 then [0xC0 + n / 0x40, 0x80 + n % 0x40]
  else if n < 0x10000 then
    [0xE0 + n / 0x1000, 0x80 + n / 0x40 % 0x40, 0x80 + n % 0x40]
  else
    [0xF0 + n / 0x40000, 0x80 + n / 0x1000 % 0x40, 0x80 + n / 0x40 % 0x40,
     0x80 + n % 0x40]

/-- Upper-case hex digit, as emitted by `urllib.parse.quote`. -/
def hexDigitChar (n : Nat) : Char := "0123456789ABCDEF".data.getD n '0'

/-- The `%HH` escape of one byte. -/
def pctTriple (b : Nat) : List Char :=
  ['%', hexDigitChar (b / 16), hexDigitChar (b % 16)]

/-- `quote_plus` on one character: space becomes `+`, always-safe characters
pass through, everything else is percent-encoded bytewise in UTF-8. -/
def quotePlusChar (c : Char) : List Char :=
  if c = ' ' then ['+']
  else if alwaysSafe c then [c]
  else (utf8Bytes c).flatMap pctTriple

/-- `urllib.parse.quote_plus`. -/
def quote_plus (s : String) : String := ⟨s.data.flatMap quotePlusChar⟩

/-- Value of one hex digit (upper or lower case, as `unquote` accepts). -/
def hexVal (c : Char) : Option Nat :=
  if '0' ≤ c ∧ c ≤ '9' then some (c.toNat - 48)
  else if 'A' ≤ c ∧ c ≤ 'F' then some (c.toNat - 55)
  else if 'a' ≤ c ∧ c ≤ 'f' then some (c.toNat - 87)
  else none

/-- The `+` → space substitution `unquote_plus` performs before unquoting. -/
def replacePlus (cs : List Char) : List Char :=
  cs.map (fun c => if c = '+' then ' ' else c)

/-- A lexical token of a percent-encoded string: an escaped byte or a literal
character. -/
inductive Tok where
  | byte (b : Nat)
  | chr (c : Char)
deriving DecidableEq

/-- Split a percent-encoded string into tokens: each valid `%HH` becomes a
byte, everything else (including a `%` not followed by two hex digits, which
`unquote` leaves literal) a character. -/
def tokenize : List Char → List Tok
  | [] => []
  | '%' :: h1 :: h2 :: rest2 =>
    match hexVal h1, hexVal h2 with
    | some a, some b => .byte (a * 16 + b) :: tokenize rest2
    | _, _ => .chr '%' :: tokenize (h1 :: h2 :: rest2)
  | c :: rest => .chr c :: tokenize rest

/-- The U+FFFD replacement character (`errors="replace"`). -/
def replChar : Char := Char.ofNat 0xFFFD

/-- Is `b` a UTF-8 continuation byte? -/
def isCont (b : Nat) : Bool := 0x80 ≤ b ∧ b < 0xC0

/-- Decode one UTF-8 sequence whose lead byte `b` has already been taken off
the token stream: the decoded character (strict UTF-8: overlong forms,
surrogates and out-of-range values are invalid; an invalid sequence yields
one U+FFFD for the offending lead byte, approximating CPython's
`errors="replace"`, whose exact grouping differs only on invalid input that
`quote_plus` never produces) together with the unconsumed rest of the
stream. -/
def decodeStep (b : Nat) (rest : List Tok) : Char × List Tok :=
  if b < 0x80 then (Char.ofNat b, rest)
  else if b < 0xC2 then (replChar, rest)
  else if b < 0xE0 then
    match rest with
    | .byte b2 :: rest2 =>
      if isCont b2 then (Char.ofNat ((b - 0xC0) * 0x40 + (b2 - 0x80)), rest2)
      else (replChar, rest)
    | _ => (replChar, rest)
  else if b < 0xF0 then
    match rest with
    | .byte b2 :: .byte b3 :: rest3 =>
      if isCont b2 && isCont b3 then
        let n := (b - 0xE0) * 0x1000 + (b2 - 0x80) * 0x40 + (b3 - 0x80)
        if 0x800 ≤ n ∧ (n < 0xD800 ∨ 0xDFFF < n) then (Char.ofNat n, rest3)
        else (replChar, rest3)
      else (replChar, rest)
    | _ => (replChar, rest)
  else if b < 0xF5 then
    match rest with
    | .byte b2 :: .byte b3 :: .byte b4 :: rest4 =>
      if isCont b2 && isCont b3 && isCont b4 then
        let n := (b - 0xF0) * 0x40000 + (b2 - 0x80) * 0x1000 +
          (b3 - 0x80) * 0x40 + (b4 - 0x80)
        if 0x10000 ≤ n ∧ n < 0x110000 then (Char.ofNat n, rest4)
        else (replChar, rest4)
      else (replChar, rest)
    | _ => (replChar, rest)
  else (replChar, rest)

theorem decodeStep_length (b : Nat) (rest : List Tok) :
    (decodeStep b rest).2.length ≤ rest.length := by
  unfold decodeStep
  split_ifs <;> try simp
  all_goals (split <;> try simp)
  all_goals (split_ifs <;> simp)
  all_goals omega

/-- Decode the token stream: literal characters pass through, escaped bytes
are decoded as UTF-8 sequences via `decodeStep`. -/
def decodeToks : List Tok → List Char
  | [] => []
  | .chr c :: rest => c :: decodeToks rest
  | .byte b :: rest =>
    (decodeStep b rest).1 :: decodeToks (decodeStep b rest).2
  termination_by toks => toks.length
  decreasing_by
    all_goals simp
    exact Nat.lt_succ_of_le (decodeStep_length b rest)

/-- `urllib.parse.unquote_plus`. -/
def unquote_plus (s : String) : String :=
  ⟨decodeToks (tokenize (replacePlus s.data))⟩

/-- `APIInvoker.build_url`: `"&".join(f"{k}={quote_plus(str(v))}")` appended
to the base URL after `?`.  The params dict is modelled as the insertion-order
list of pairs. -/
def build_url (base_url : String) (params : List (String × String)) : String :=
  base_url ++ "?" ++
    strJoin "&" (params.map (fun p => p.1 ++ "=" ++ quote_plus p.2))

/-- The params dict built by `APIInvoker.invoke`: username, password, request,
object (always `"Thermostat"`), then `selection` when `zone_name` is truthy
(neither `None` nor empty), then value. -/
def invokeParams (username password request_type value : String)
    (zone_name : Option String) : List (String × String) :=
  [("username", username), ("password", password), ("request", request_type),
   ("object", "Thermostat")] ++
  (match zone_name with
   | some z => if z = "" then [] else [("selection", "name:" ++ z ++ ";")]
   | none => []) ++
  [("value", value)]

/-- The params dict built by the site-name workers (`fetch_site_name_threaded`
and `set_altname_threaded`): same order, object `"Site"`, no selection. -/
def siteParams (username password request_type value : String) :
    List (String × String) :=
  [("username", username), ("password", password), ("request", request_type),
   ("object", "Site"), ("value", value)]

/-! ## `APIInvoker.invoke` transport behaviour (lines 96-147) -/

/-- Result of `subprocess.run` when it returns. -/
inductive SubprocResult where
  | completed (returncode : Int) (stdout stderr : String)

/-- The Python exceptions `invoke` can see from `subprocess.run`:
`FileNotFoundError`, `subprocess.TimeoutExpired`, or any other exception
(carrying its rendered message). -/
inductive PyExc where
  | fileNotFoundError
  | timeoutExpired
  | otherError (msg : String)

/-- What the outside world does on one invocation: whether `os.name == "nt"`,
what `subprocess.run(["powershell", …])` does, and what
`urllib.request.urlopen` does (its exception rendered as a message). -/
structure TransportEnv where
  isWindowsNT : Bool
  powershellRun : Except PyExc SubprocResult
  urlopenResult : Except String String

/-- The urllib fallback block of `invoke`: `try: urlopen … except Exception as
e: return False, f"urllib request failed: {e}"`. -/
def urllibFetch (env : TransportEnv) : Except PyExc (Bool × String) :=
  match env.urlopenResult with
  | .ok text => .ok (true, text)
  | .error e => .ok (false, "urllib request failed: " ++ e)

/-- `APIInvoker.invoke` as a function of the environment's behaviour, in the
exception monad: a `.error` result would mean an exception escaping to the
caller.  On Windows the PowerShell attempt runs first; `FileNotFoundError`
falls through to urllib, `TimeoutExpired` and any other exception return
`(False, message)`; a completed process returns `(True, stdout)` on exit code
0 and `(False, stderr or stdout)` otherwise. -/
def invoke (env : TransportEnv) : Except PyExc (Bool × String) :=
  if env.isWindowsNT then
    match env.powershellRun with
    | .ok (.completed rc out err) =>
      if rc = 0 then .ok (true, out)
      else .ok (false, if err = "" then out else err)
    | .error .fileNotFoundError => urllibFetch env
    | .error .timeoutExpired => .ok (false, "Request timed out (PowerShell).")
    | .error (.otherError ex) =>
      .ok (false, "PowerShell invocation failed: " ++ ex)
  else urllibFetch env

/-! ## Spec-side definitions

These follow the specification's words, to be compared with the definitions
translated from the source. -/

/-- Spec side: the texts of the elements carrying (lowercased) tag `t`, in
document order — the claim's "occurrences" of a tag. -/
def occTexts (t : String) (es : List Element) : List String :=
  es.filterMap (fun e => if pyLower e.tag = t then some (pyStrip e.text) else none)

/-- Spec side: the value the claim says a tag with the given occurrence list
gets — absent for none, a scalar for one, the ordered list for two or more. -/
def occValue : List String → Option FieldValue
  | [] => none
  | [x] => some (.scalar x)
  | x :: y :: xs => some (.vlist (x :: y :: xs))

/-- How one more occurrence `x` updates an existing entry (scalar promotion /
list append), used to state the fold invariant. -/
def pushVal : Option FieldValue → String → FieldValue
  | none, x => .scalar x
  | some (.scalar s), x => .vlist [s, x]
  | some (.vlist ss), x => .vlist (ss ++ [x])

/-- Combine an entry already in the map with a list of later occurrences. -/
def combineVal : Option FieldValue → List String → Option FieldValue
  | v, [] => v
  | none, x :: xs => occValue (x :: xs)
  | some (.scalar s), x :: xs => some (.vlist (s :: x :: xs))
  | some (.vlist ss), x :: xs => some (.vlist (ss ++ x :: xs))

/-- Spec side: the known fields of the projector. -/
inductive KnownField where
  | description | system | fan | runstatus | temperature | humidity
  | discharge | heatsetting | coolsetting | frontkeypad | schedule
  | serialno | message

/-- Spec side: the fixed canonical ordering of the known fields, amended to
the order the code actually emits (heat setting before cool setting). -/
def canonicalOrder : List KnownField :=
  [.description, .system, .fan, .runstatus, .temperature, .humidity,
   .discharge, .heatsetting, .coolsetting, .frontkeypad, .schedule,
   .serialno, .message]

/-- Spec side: what one known field renders to when its condition holds
(requested and present for ordinary fields, present in the parsed map for the
discharge and message fields). -/
def fieldEmit (data : XData) (rv : String) : KnownField → Option String
  | .description =>
    if inStr "description" rv && hasField data "description" then
      some ("Description:    " ++ pyFormatVal (lookupKey data "description")) else none
  | .system =>
    if inStr "system" rv && hasField data "system" then
      some ("System:         " ++ pyFormatVal (lookupKey data "system")) else none
  | .fan =>
    if inStr "fan" rv && hasField data "fan" then
      some ("Fan:            " ++ pyFormatVal (lookupKey data "fan")) else none
  | .runstatus =>
    if inStr "runstatus" rv && hasField data "runstatus" then
      some ("Run Status:     " ++ pyFormatVal (lookupKey data "runstatus")) else none
  | .temperature =>
    if inStr "temperature" rv && hasField data "temperature" then
      some ("Temperature:    " ++ pyFormatVal (lookupKey data "temperature") ++ "°") else none
  | .humidity =>
    if inStr "humidity" rv && hasField data "humidity" then
      some ("Humidity:       " ++ pyFormatVal (lookupKey data "humidity") ++ "%") else none
  | .discharge =>
    if (lookupKey data "slaves").isSome then
      some ("Discharge Temp: " ++ pyFormatVal (lookupKey data "value") ++ "°") else none
  | .heatsetting =>
    if inStr "heatsetting" rv && hasField data "heatsetting" then
      some ("Heat Setting:   " ++ pyFormatVal (lookupKey data "heatsetting") ++ "°") else none
  | .coolsetting =>
    if inStr "coolsetting" rv && hasField data "coolsetting" then
      some ("Cool Setting:   " ++ pyFormatVal (lookupKey data "coolsetting") ++ "°") else none
  | .frontkeypad =>
    if inStr "frontkeypad" rv && hasField data "frontkeypad" then
      some ("FrontKeypad:    " ++ pyFormatVal (lookupKey data "frontkeypad")) else none
  | .schedule =>
    if inStr "schedule" rv && hasField data "schedule" then
      some ("Schedule:       " ++ pyFormatVal (lookupKey data "schedule")) else none
  | .serialno =>
    if inStr "serialno" rv && hasField data "serialno" then
      some ("SerialNo:       " ++ pyFormatVal (lookupKey data "serialno")) else none
  | .message =>
    if (lookupKey data "message").isSome then
      some ("Message:        " ++ pyFormatVal (lookupKey data "message")) else none

/-- Spec side: the projector as the spec describes it — the canonical list
filtered down to the fields whose condition holds, in canonical order. -/
def canonicalProjection (data : XData) (rv : String) : List String :=
  canonicalOrder.filterMap (fieldEmit data rv)

instance {ε α : Type} [DecidableEq ε] [DecidableEq α] : DecidableEq (Except ε α) :=
  fun a b =>
    match a, b with
    | .ok x, .ok y =>
      if h : x = y then .isTrue (by rw [h]) else .isFalse (fun hh => by cases hh; exact h rfl)
    | .error x, .error y =>
      if h : x = y then .isTrue (by rw [h]) else .isFalse (fun hh => by cases hh; exact h rfl)
    | .ok _, .error _ => .isFalse (fun hh => by cases hh)
    | .error _, .ok _ => .isFalse (fun hh => by cases hh)

/-! ## Helper lemmas -/

theorem lookupKey_updateData_self (data : XData) (k x : String) :
    lookupKey (updateData data k x) k = some (pushVal (lookupKey data k) x) := by
  induction data with
  | nil => simp [updateData, lookupKey, pushVal]
  | cons p rest ih =>
    obtain ⟨k', v⟩ := p
    by_cases h : k' = k
    · subst h
      cases v <;> simp [updateData, lookupKey, pushVal]
    · simp [updateData, lookupKey, h, ih]

theorem lookupKey_updateData_other (data : XData) (k x t : String) (h : k ≠ t) :
    lookupKey (updateData data k x) t = lookupKey data t := by
  induction data with
  | nil => simp [updateData, lookupKey, h]
  | cons p rest ih =>
    obtain ⟨k', v⟩ := p
    by_cases h' : k' = k
    · subst h'
      cases v <;> simp [updateData, lookupKey, h]
    · simp [updateData, lookupKey, h', ih]

theorem combineVal_push (v : Option FieldValue) (x : String) (xs : List String) :
    combineVal (some (pushVal v x)) xs = combineVal v (x :: xs) := by
  match v, xs with
  | none, [] => rfl
  | none, y :: ys => rfl
  | some (.scalar s), [] => rfl
  | some (.scalar s), y :: ys => rfl
  | some (.vlist ss), [] => rfl
  | some (.vlist ss), y :: ys => simp [pushVal, combineVal]

theorem lookupKey_foldl_extract (es : List Element) (data : XData) (t : String)
    (ht : t ≠ "") :
    lookupKey (es.foldl extractStep data) t =
      combineVal (lookupKey data t) (occTexts t es) := by
  induction es generalizing data with
  | nil => simp [occTexts, combineVal]
  | cons e es ih =>
    rw [List.foldl_cons]
    by_cases he : pyLower e.tag = t
    · have hne : pyLower e.tag ≠ "" := by rw [he]; exact ht
      rw [ih]
      simp only [extractStep, if_neg hne, occTexts, List.filterMap_cons, if_pos he]
      rw [he, lookupKey_updateData_self, combineVal_push]
    · have : occTexts t (e :: es) = occTexts t es := by
        simp only [occTexts, List.filterMap_cons, if_neg he]
      rw [this, ih]
      by_cases hz : pyLower e.tag = ""
      · simp [extractStep, hz]
      · simp only [extractStep, if_neg hz]
        rw [lookupKey_updateData_other _ _ _ _ he]

theorem combineVal_none (xs : List String) : combineVal none xs = occValue xs := by
  cases xs <;> rfl

/-! ## Claims -/

/-- **C1, counterexample.** The claim says `parse("<a>1</a><b>2</b>")` yields
exactly `{a:"1", b:"2"}` and nothing else.  In fact `Element.iter()` yields
the synthetic wrapping root element itself first, so the map also contains
`root ↦ ""`: the full result is `{root:"", a:"1", b:"2"}`, and the direct
(unwrapped) parse fails, which is what triggers the wrap. -/
theorem claim_C1_counterexample :
    parse "<a>1</a><b>2</b>" =
      .ok [("root", .scalar ""), ("a", .scalar "1"), ("b", .scalar "2")] ∧
    (parse "<a>1</a><b>2</b>").map (fun d => lookupKey d "root") =
      .ok (some (.scalar "")) ∧
    fromstring "<a>1</a><b>2</b>".data = .error "ParseError" := by
  refine ⟨rfl, rfl, rfl⟩

/-- **C1, amended.** `parse("<a>1</a><b>2</b>")` succeeds through the
synthetic-root recovery path (the direct parse fails) and yields the mapping
`{root:"", a:"1", b:"2"}`: `a` and `b` map to `"1"` and `"2"`, and the
synthetic root element contributes one extra entry `root ↦ ""`. -/
theorem claim_C1 :
    fromstring "<a>1</a><b>2</b>".data = .error "ParseError" ∧
    parse "<a>1</a><b>2</b>" =
      .ok [("root", .scalar ""), ("a", .scalar "1"), ("b", .scalar "2")] := by
  refine ⟨rfl, rfl⟩

/-- **C2, counterexample.** The claim's example says
`parse("<root><name>x</name><name>y</name></root>")` yields
`{name:["x","y"]}`; in fact the root element itself is iterated too, so the
result also contains `root ↦ ""`. -/
theorem claim_C2_counterexample :
    parse "<root><name>x</name><name>y</name></root>" =
      .ok [("root", .scalar ""), ("name", .vlist ["x", "y"])] ∧
    (parse "<root><name>x</name><name>y</name></root>").map
        (fun d => lookupKey d "root") = .ok (some (.scalar "")) := by
  refine ⟨rfl, rfl⟩

/-- **C2, amended.** For every XML tree and non-empty (lowercased) tag `t`,
the flattened map's entry for `t` is: absent when `t` never occurs, the
scalar text when it occurs once, and the ordered list of the texts in
document order when it occurs twice or more (second occurrence promotes to a
2-element list, later ones append).  In particular
`parse("<root><name>x</name><name>y</name></root>")` yields
`{root:"", name:["x","y"]}` (the iterated root element included). -/
theorem claim_C2 :
    (∀ (root : Element) (t : String), t ≠ "" →
      lookupKey (extract_values_from_xml root) t =
        occValue (occTexts t (iterElems root))) ∧
    parse "<root><name>x</name><name>y</name></root>" =
      .ok [("root", .scalar ""), ("name", .vlist ["x", "y"])] := by
  constructor
  · intro root t ht
    rw [extract_values_from_xml, lookupKey_foldl_extract _ _ _ ht]
    simp [lookupKey, combineVal_none]
  · rfl

/-- **C2, witness.** The general part of `claim_C2` applied to the concrete
tree `<root><name>x</name><name>y</name></root>` and tag `"name"`. -/
theorem claim_C2_witness :
    ("name" : String) ≠ "" ∧
    lookupKey (extract_values_from_xml
        (.mk "root" "" [.mk "name" "x" [], .mk "name" "y" []])) "name" =
      some (.vlist ["x", "y"]) :=
  ⟨by decide,
   (claim_C2.1 (.mk "root" "" [.mk "name" "x" [], .mk "name" "y" []]) "name"
      (by decide)).trans (by decide)⟩

/-- **C3, counterexample.** The claim says parse fails with `ParseError`
exactly when the body is empty or does not begin with `<`.  Both directions
fail on the code: `"<a"` begins with `<` and is non-empty, yet parsing fails
(even after the synthetic-root retry); and `" <a>1</a>"` does not begin with
`<` (it begins with a space), yet parsing succeeds because the body is
stripped first. -/
theorem claim_C3_counterexample :
    ("<".data.isPrefixOf "<a".data = true ∧ "<a" ≠ "" ∧
        parse "<a" = .error "ParseError") ∧
    ((" <a>1</a>".data.head? = some ' ') ∧
        parse " <a>1</a>" = .ok [("a", .scalar "1")]) := by
  refine ⟨⟨by decide, by decide, rfl⟩, ⟨rfl, rfl⟩⟩

/-- **C3, amended.** `parse` strips the body first and fails with
`ParseError` (`"Not XML content"`) whenever the stripped body does not begin
with `<` (in particular whenever it is empty); this condition is sufficient
but not necessary, since a body beginning with `<` can still fail after the
synthetic-root retry (e.g. `"<a"`).  In particular `parse("")` and
`parse("not xml")` both fail with `ParseError`. -/
theorem claim_C3 :
    (∀ s : String, "<".data.isPrefixOf (pyStripChars s.data) = false →
      parse s = .error "Not XML content") ∧
    parse "" = .error "Not XML content" ∧
    parse "not xml" = .error "Not XML content" ∧
    parse "<a" = .error "ParseError" := by
  refine ⟨?_, rfl, rfl, rfl⟩
  intro s h
  simp [parse, safe_parse_xml, h, Except.map]

/-- **C3, witness.** The general part of `claim_C3` applied to the concrete
body `"not xml"`. -/
theorem claim_C3_witness :
    "<".data.isPrefixOf (pyStripChars "not xml".data) = false ∧
    parse "not xml" = .error "Not XML content" :=
  ⟨by decide, claim_C3.1 "not xml" (by decide)⟩

/-- **C5 (confirmed).** Numeric fields carry their unit suffix after the
fixed-width label: for every parsed map and requested field list, whenever
one of temperature, humidity, heat setting or cool setting is requested and
present, the projector emits its line as the 16-character label followed by
the rendered value and the unit suffix (`°` for the temperature and both
setpoints, `%` for humidity); in particular
`project({temperature:"72", humidity:"45"}, "temperature;humidity;")` yields
exactly `["Temperature:    72°", "Humidity:       45%"]`, in that order. -/
theorem claim_C5 :
    (∀ (data : XData) (rv : String),
      (inStr "temperature" (pyLower rv) && hasField data "temperature") = true →
      ("Temperature:    " ++ pyFormatVal (lookupKey data "temperature") ++ "°") ∈
        formatLines data rv) ∧
    (∀ (data : XData) (rv : String),
      (inStr "humidity" (pyLower rv) && hasField data "humidity") = true →
      ("Humidity:       " ++ pyFormatVal (lookupKey data "humidity") ++ "%") ∈
        formatLines data rv) ∧
    (∀ (data : XData) (rv : String),
      (inStr "heatsetting" (pyLower rv) && hasField data "heatsetting") = true →
      ("Heat Setting:   " ++ pyFormatVal (lookupKey data "heatsetting") ++ "°") ∈
        formatLines data rv) ∧
    (∀ (data : XData) (rv : String),
      (inStr "coolsetting" (pyLower rv) && hasField data "coolsetting") = true →
      ("Cool Setting:   " ++ pyFormatVal (lookupKey data "coolsetting") ++ "°") ∈
        formatLines data rv) ∧
    formatLines [("temperature", .scalar "72"), ("humidity", .scalar "45")]
      "temperature;humidity;" = ["Temperature:    72°", "Humidity:       45%"] := by
  refine ⟨?_, ?_, ?_, ?_, rfl⟩
  · intro data rv h
    have hmem : ("Temperature:    " ++ pyFormatVal (lookupKey data "temperature")
        ++ "°") ∈ knownLines data (pyLower rv) := by
      simp only [knownLines, h]; simp
    simpa only [formatLines, if_neg (List.ne_nil_of_mem hmem)] using hmem
  · intro data rv h
    have hmem : ("Humidity:       " ++ pyFormatVal (lookupKey data "humidity")
        ++ "%") ∈ knownLines data (pyLower rv) := by
      simp only [knownLines, h]; simp
    simpa only [formatLines, if_neg (List.ne_nil_of_mem hmem)] using hmem
  · intro data rv h
    have hmem : ("Heat Setting:   " ++ pyFormatVal (lookupKey data "heatsetting")
        ++ "°") ∈ knownLines data (pyLower rv) := by
      simp only [knownLines, h]; simp
    simpa only [formatLines, if_neg (List.ne_nil_of_mem hmem)] using hmem
  · intro data rv h
    have hmem : ("Cool Setting:   " ++ pyFormatVal (lookupKey data "coolsetting")
        ++ "°") ∈ knownLines data (pyLower rv) := by
      simp only [knownLines, h]; simp
    simpa only [formatLines, if_neg (List.ne_nil_of_mem hmem)] using hmem

/-- **C5, witness.** The heat-setting part of `claim_C5` applied to a
concrete map (heat setting present and requested), showing the `°` suffix on
a setpoint line, together with the satisfied hypothesis. -/
theorem claim_C5_witness :
    (inStr "heatsetting" (pyLower "heatsetting;")
      && hasField [("heatsetting", FieldValue.scalar "68")] "heatsetting") = true ∧
    ("Heat Setting:   " ++
        pyFormatVal (lookupKey [("heatsetting", FieldValue.scalar "68")]
          "heatsetting") ++ "°") ∈
      formatLines [("heatsetting", FieldValue.scalar "68")] "heatsetting;" :=
  ⟨by decide,
   claim_C5.2.2.1 [("heatsetting", .scalar "68")] "heatsetting;" (by decide)⟩

/-- **C10 (confirmed).** Beginning with `<` is necessary but not sufficient:
`"<a>"` begins with `<`, the direct parse fails, the synthetic-root retry
(`"<root><a></root>"`) also fails, and `parse` reports the retry's
`ParseError` (not the `"Not XML content"` guard error). -/
theorem claim_C10 :
    ("<".data.isPrefixOf "<a>".data = true) ∧
    fromstring "<a>".data = .error "ParseError" ∧
    fromstring "<root><a></root>".data = .error "ParseError" ∧
    parse "<a>" = .error "ParseError" := by
  refine ⟨by decide, rfl, rfl, rfl⟩

theorem toList_ite {α : Type} (c : Prop) [Decidable c] (b : α) :
    (if c then some b else none).toList = if c then [b] else [] := by
  split <;> rfl

theorem filterMap_toList_append {α β : Type} (f : α → Option β) (a : α)
    (l : List α) :
    List.filterMap f (a :: l) = (f a).toList ++ List.filterMap f l := by
  rw [List.filterMap_cons]; cases f a <;> simp

/-- **C4, counterexample.** The claim's canonical order places cool setting
before heat setting; the code emits heat setting first.  With both setpoints
present and requested, the output is `["Heat Setting:   68°",
"Cool Setting:   72°"]` — not the cool-first order the claim states. -/
theorem claim_C4_counterexample :
    formatLines [("heatsetting", .scalar "68"), ("coolsetting", .scalar "72")]
        "coolsetting;heatsetting;" =
      ["Heat Setting:   68°", "Cool Setting:   72°"] ∧
    formatLines [("heatsetting", .scalar "68"), ("coolsetting", .scalar "72")]
        "coolsetting;heatsetting;" ≠
      ["Cool Setting:   72°", "Heat Setting:   68°"] := by
  refine ⟨rfl, by decide⟩

/-- **C4, amended.** The projector emits known fields in the fixed canonical
order description, system, fan, run status, temperature, humidity, discharge
temperature (from slave records), **heat setting, cool setting**, front
keypad, schedule, serial number, message: its known-field section equals the
canonical field list filtered to the fields whose condition holds, and it
depends on the parsed map only through key lookups, so the same field, when
present and requested, renders at the same position regardless of XML
traversal order. -/
theorem claim_C4 :
    (∀ (data : XData) (rv : String),
      knownLines data rv = canonicalProjection data rv) ∧
    (∀ (data₁ data₂ : XData) (rv : String),
      (∀ k, lookupKey data₁ k = lookupKey data₂ k) →
      knownLines data₁ rv = knownLines data₂ rv) := by
  constructor
  · intro data rv
    simp only [canonicalProjection, canonicalOrder, filterMap_toList_append,
      List.filterMap_nil, List.append_nil, fieldEmit, toList_ite]
    simp only [knownLines, List.append_assoc]
  · intro data₁ data₂ rv h
    simp only [knownLines, hasField, h]

/-- **C4, witness.** The order part of `claim_C4` applied to a concrete map
holding both setpoints, and the invariance part applied to two permutations
of the same two-entry map. -/
theorem claim_C4_witness :
    knownLines [("coolsetting", .scalar "72"), ("heatsetting", .scalar "68")]
        "coolsetting;heatsetting;" =
      canonicalProjection
        [("coolsetting", .scalar "72"), ("heatsetting", .scalar "68")]
        "coolsetting;heatsetting;" ∧
    knownLines [("coolsetting", .scalar "72"), ("heatsetting", .scalar "68")]
        "coolsetting;heatsetting;" =
      knownLines [("heatsetting", .scalar "68"), ("coolsetting", .scalar "72")]
        "coolsetting;heatsetting;" :=
  ⟨claim_C4.1 _ _, claim_C4.2 _ _ _ (by
    intro k
    by_cases h1 : "coolsetting" = k
    · subst h1; decide
    · by_cases h2 : "heatsetting" = k
      · subst h2; decide
      · simp [lookupKey, h1, h2])⟩

/-- **C6 (confirmed).** Whenever the parsed map contains a key `slaves`, the
projector emits the `Discharge Temp:` line rendering the parsed `value` key
(f-string rendering: `None` when absent, the Python list repr for a repeated
tag), for every requested field list — `slaves` need not be requested. -/
theorem claim_C6 (data : XData) (requested_values : String)
    (h : (lookupKey data "slaves").isSome) :
    ("Discharge Temp: " ++ pyFormatVal (lookupKey data "value") ++ "°") ∈
      formatLines data requested_values := by
  have hmem : ("Discharge Temp: " ++ pyFormatVal (lookupKey data "value") ++ "°") ∈
      knownLines data (pyLower requested_values) := by
    simp only [knownLines, if_pos h]
    simp
  have hne : knownLines data (pyLower requested_values) ≠ [] :=
    List.ne_nil_of_mem hmem
  simpa only [formatLines, if_neg hne] using hmem

/-- **C6, witness.** `claim_C6` applied to a concrete map containing a
`slaves` record and a `value` of 55, with a requested list that does not
mention `slaves`. -/
theorem claim_C6_witness :
    (lookupKey [("slaves", FieldValue.scalar ""), ("value", FieldValue.scalar "55")]
        "slaves").isSome = true ∧
    ("Discharge Temp: " ++
        pyFormatVal (lookupKey
          [("slaves", FieldValue.scalar ""), ("value", FieldValue.scalar "55")]
          "value") ++ "°") ∈
      formatLines [("slaves", FieldValue.scalar ""), ("value", FieldValue.scalar "55")]
        "temperature;" :=
  ⟨by decide,
   claim_C6 [("slaves", .scalar ""), ("value", .scalar "55")] "temperature;"
     (by decide)⟩

theorem lexLe_total (xs ys : List Char) : lexLe xs ys = true ∨ lexLe ys xs = true := by
  induction xs generalizing ys with
  | nil => left; rfl
  | cons a as ih =>
    cases ys with
    | nil => right; rfl
    | cons b bs =>
      by_cases h1 : a.toNat < b.toNat
      · left; simp [lexLe, h1]
      · by_cases h2 : b.toNat < a.toNat
        · right; simp [lexLe, h2]
        · rcases ih bs with h | h
          · left; simp [lexLe, h1, h2, h]
          · right; simp [lexLe, h1, h2, h]

theorem lexLe_trans {xs ys zs : List Char} (h1 : lexLe xs ys = true)
    (h2 : lexLe ys zs = true) : lexLe xs zs = true := by
  induction xs generalizing ys zs with
  | nil => rfl
  | cons a as ih =>
    cases ys with
    | nil => simp [lexLe] at h1
    | cons b bs =>
      cases zs with
      | nil => simp [lexLe] at h2
      | cons c cs =>
        simp only [lexLe] at h1 h2 ⊢
        split_ifs at h1 h2 ⊢ <;> first | rfl | omega | exact ih h1 h2

instance : IsTrans (String × FieldValue) itemLe :=
  ⟨fun _ _ _ h1 h2 => lexLe_trans h1 h2⟩

instance : IsTotal (String × FieldValue) itemLe :=
  ⟨fun a b => lexLe_total a.1.data b.1.data⟩

set_option maxRecDepth 10000 in
/-- **C7, counterexample.** The claim says the fallback truncates precisely
the values *longer than* 300 characters.  A value of exactly 300 characters
is not longer than 300, yet the code (`len(v) < 300` is false) still renders
it as `str(v)[:300] + "..."`, i.e. with the ellipsis appended. -/
theorem claim_C7_counterexample :
    formatLines [("k", .scalar ⟨List.replicate 300 'a'⟩)] "" =
      [pyLjust 15 (pyCapitalize "k") ++ ": " ++
        (pyTake 300 ⟨List.replicate 300 'a'⟩ ++ "...")] ∧
    (⟨List.replicate 300 'a'⟩ : String).data.length = 300 ∧
    formatLines [("k", .scalar ⟨List.replicate 300 'a'⟩)] "" ≠
      [pyLjust 15 (pyCapitalize "k") ++ ": " ++ (⟨List.replicate 300 'a'⟩ : String)] := by
  refine ⟨rfl, by decide, by decide⟩

/-- **C7, amended.** When no known field matched, the projector emits every
item of the parsed map sorted lexicographically by key (the output is a
sorted permutation of the map) as `Key: value` lines (key capitalized and
left-justified to width 15); a value is rendered verbatim when it is a
string of fewer than 300 characters and otherwise — strings of length ≥ 300
(not only those longer than 300) and all list values — as `str(v)[:300]`
plus an ellipsis.  When the parsed map is empty it emits the single line
`"No data returned by server."`; in particular `project({}, "temperature;")`
yields exactly that. -/
theorem claim_C7 :
    formatLines [] "temperature;" = ["No data returned by server."] ∧
    (∀ (data : XData) (rv : String),
      knownLines data (pyLower rv) = [] → data ≠ [] →
      formatLines data rv = (pySortItems data).map fallbackLine) ∧
    (∀ data : XData, List.Sorted itemLe (pySortItems data)) ∧
    (∀ data : XData, List.Perm (pySortItems data) data) ∧
    (∀ k s : String,
      (s.data.length < 300 →
        fallbackLine (k, .scalar s) = pyLjust 15 (pyCapitalize k) ++ ": " ++ s) ∧
      (300 ≤ s.data.length →
        fallbackLine (k, .scalar s) =
          pyLjust 15 (pyCapitalize k) ++ ": " ++ (pyTake 300 s ++ "..."))) ∧
    (∀ (k : String) (ss : List String),
      fallbackLine (k, .vlist ss) =
        pyLjust 15 (pyCapitalize k) ++ ": " ++ (pyTake 300 (pyListRepr ss) ++ "...")) := by
  refine ⟨rfl, ?_, ?_, ?_, ?_, ?_⟩
  · intro data rv hk hd
    simp [formatLines, hk, hd]
  · intro data
    exact List.sorted_insertionSort itemLe data
  · intro data
    exact List.perm_insertionSort itemLe data
  · intro k s
    constructor
    · intro h
      simp only [fallbackLine, if_pos h]
    · intro h
      have : ¬ s.data.length < 300 := by omega
      simp only [fallbackLine, if_neg this]
  · intro k ss
    rfl

/-- **C7, witness.** The fallback part of `claim_C7` applied to a concrete
two-entry map (inserted in reverse order) with no matching known field. -/
theorem claim_C7_witness :
    knownLines [("b", FieldValue.scalar "2"), ("a", FieldValue.scalar "1")]
        (pyLower "") = [] ∧
    formatLines [("b", FieldValue.scalar "2"), ("a", FieldValue.scalar "1")] "" =
      (pySortItems [("b", FieldValue.scalar "2"), ("a", FieldValue.scalar "1")]).map
        fallbackLine :=
  ⟨by decide,
   claim_C7.2.1 [("b", .scalar "2"), ("a", .scalar "1")] "" (by decide)
     (by decide)⟩

/-- **C9, counterexample.** The claim says every caught exception — the
missing shell client included — is converted into `(false,
errorDescription)`.  In fact `FileNotFoundError` falls through to the urllib
fallback, which can succeed: on Windows with no PowerShell and a working
network, `invoke` returns `(True, body)`. -/
theorem claim_C9_counterexample :
    invoke ⟨true, .error .fileNotFoundError, .ok "ok-body"⟩ =
      .ok (true, "ok-body") ∧
    (true, "ok-body").1 ≠ false := by
  refine ⟨rfl, by decide⟩

/-- **C9, amended.** The transport invoker never raises to its caller: for
every environment behaviour it returns a `(success, body)` pair.  A timeout
returns `(false, "Request timed out (PowerShell).")`; any other PowerShell
exception returns `(false, message)`; a completed shell process with
non-zero exit code returns `(false, stderr-or-stdout)` rather than raising;
a missing shell client (`FileNotFoundError`) is caught and routed to the
urllib fallback, whose own failure is converted to `(false, "urllib request
failed: …")`. -/
theorem claim_C9 (env : TransportEnv) :
    (∃ r : Bool × String, invoke env = .ok r) ∧
    (env.isWindowsNT = true → env.powershellRun = .error .timeoutExpired →
      invoke env = .ok (false, "Request timed out (PowerShell).")) ∧
    (∀ m, env.isWindowsNT = true → env.powershellRun = .error (.otherError m) →
      invoke env = .ok (false, "PowerShell invocation failed: " ++ m)) ∧
    (∀ (rc : Int) (out err : String), env.isWindowsNT = true →
      env.powershellRun = .ok (.completed rc out err) → rc ≠ 0 →
      invoke env = .ok (false, if err = "" then out else err)) ∧
    (env.isWindowsNT = true → env.powershellRun = .error .fileNotFoundError →
      invoke env = urllibFetch env) ∧
    (∀ m, env.urlopenResult = .error m →
      urllibFetch env = .ok (false, "urllib request failed: " ++ m)) := by
  obtain ⟨win, ps, url⟩ := env
  refine ⟨?_, ?_, ?_, ?_, ?_, ?_⟩
  · cases win <;> simp only [invoke, urllibFetch]
    · cases url with
      | ok t => exact ⟨(true, t), rfl⟩
      | error e => exact ⟨(false, "urllib request failed: " ++ e), rfl⟩
    · match ps with
      | .ok (.completed rc out err) =>
        by_cases h : rc = 0
        · exact ⟨(true, out), by simp [h]⟩
        · exact ⟨(false, if err = "" then out else err), by simp [h]⟩
      | .error .fileNotFoundError =>
        cases url with
        | ok t => exact ⟨(true, t), rfl⟩
        | error e => exact ⟨(false, "urllib request failed: " ++ e), rfl⟩
      | .error .timeoutExpired => exact ⟨(false, "Request timed out (PowerShell)."), rfl⟩
      | .error (.otherError ex) =>
        exact ⟨(false, "PowerShell invocation failed: " ++ ex), rfl⟩
  · intro hw hp; subst hw; subst hp; rfl
  · intro m hw hp; subst hw; subst hp; rfl
  · intro rc out err hw hp hrc; subst hw; subst hp
    simp [invoke, hrc]
  · intro hw hp; subst hw; subst hp; rfl
  · intro m hu; subst hu; rfl

/-- **C9, witness.** `claim_C9` applied to a concrete Windows environment
whose PowerShell invocation times out. -/
theorem claim_C9_witness :
    invoke ⟨true, .error .timeoutExpired, .error "unreachable"⟩ =
      .ok (false, "Request timed out (PowerShell).") :=
  (claim_C9 ⟨true, .error .timeoutExpired, .error "unreachable"⟩).2.1 rfl rfl


theorem hexVal_hexDigitChar : ∀ n : Nat, n < 16 → hexVal (hexDigitChar n) = some n := by decide

theorem hexDigitChar_ne_plus : ∀ n : Nat, n < 16 → hexDigitChar n ≠ '+' := by decide

theorem char_valid_nat (c : Char) :
    c.toNat < 0xD800 ∨ (0xDFFF < c.toNat ∧ c.toNat < 0x110000) := by
  rcases c.valid with h | ⟨h1, h2⟩
  · left; exact h
  · right; exact ⟨h1, h2⟩

theorem tokenize_chr (c : Char) (h : c ≠ '%') (rest : List Char) :
    tokenize (c :: rest) = .chr c :: tokenize rest := by
  match rest with
  | [] => simp [tokenize, h]
  | [h1] => simp [tokenize, h]
  | h1 :: h2 :: rest2 => simp [tokenize, h]

theorem tokenize_pct (b : Nat) (hb : b < 256) (rest : List Char) :
    tokenize (pctTriple b ++ rest) = .byte b :: tokenize rest := by
  have hd : b / 16 < 16 := by omega
  have hm : b % 16 < 16 := by omega
  simp only [pctTriple, List.cons_append, List.nil_append, tokenize,
    hexVal_hexDigitChar _ hd, hexVal_hexDigitChar _ hm]
  have hbb : b / 16 * 16 + b % 16 = b := by omega
  rw [hbb]
  rfl

theorem tokenize_bytes (bs : List Nat) (h : ∀ b ∈ bs, b < 256) (rest : List Char) :
    tokenize (bs.flatMap pctTriple ++ rest) = bs.map Tok.byte ++ tokenize rest := by
  induction bs with
  | nil => simp
  | cons b bs ih =>
    simp only [List.flatMap_cons, List.append_assoc, List.map_cons]
    rw [tokenize_pct b (h b (by simp)), ih (fun x hx => h x (by simp [hx]))]
    rfl

theorem utf8Bytes_lt (c : Char) : ∀ b ∈ utf8Bytes c, b < 256 := by
  have hv := char_valid_nat c
  intro b hb
  simp only [utf8Bytes] at hb
  split_ifs at hb <;> simp at hb <;> omega

theorem decodeToks_chr (c : Char) (toks : List Tok) :
    decodeToks (.chr c :: toks) = c :: decodeToks toks := by
  rw [decodeToks]

theorem decodeToks_byte (b : Nat) (rest : List Tok) :
    decodeToks (.byte b :: rest) =
      (decodeStep b rest).1 :: decodeToks (decodeStep b rest).2 := by
  rw [decodeToks]

theorem decodeStep_one (b : Nat) (h : b < 0x80) (rest : List Tok) :
    decodeStep b rest = (Char.ofNat b, rest) := by
  unfold decodeStep
  rw [if_pos h]

theorem decodeStep_two (b b2 : Nat) (toks : List Tok)
    (hb : 0xC2 ≤ b ∧ b < 0xE0) (h2 : isCont b2 = true) :
    decodeStep b (.byte b2 :: toks) =
      (Char.ofNat ((b - 0xC0) * 0x40 + (b2 - 0x80)), toks) := by
  unfold decodeStep
  rw [if_neg (by omega), if_neg (by omega), if_pos (by omega)]
  dsimp only
  rw [if_pos h2]

theorem decodeStep_three (b b2 b3 : Nat) (toks : List Tok)
    (hb : 0xE0 ≤ b ∧ b < 0xF0) (h2 : isCont b2 = true) (h3 : isCont b3 = true)
    (hn : 0x800 ≤ (b - 0xE0) * 0x1000 + (b2 - 0x80) * 0x40 + (b3 - 0x80) ∧
      ((b - 0xE0) * 0x1000 + (b2 - 0x80) * 0x40 + (b3 - 0x80) < 0xD800 ∨
        0xDFFF < (b - 0xE0) * 0x1000 + (b2 - 0x80) * 0x40 + (b3 - 0x80))) :
    decodeStep b (.byte b2 :: .byte b3 :: toks) =
      (Char.ofNat ((b - 0xE0) * 0x1000 + (b2 - 0x80) * 0x40 + (b3 - 0x80)), toks) := by
  unfold decodeStep
  rw [if_neg (by omega), if_neg (by omega), if_neg (by omega), if_pos (by omega)]
  dsimp only
  rw [if_pos (by simp [h2, h3])]
  try dsimp only
  rw [if_pos hn]

theorem decodeStep_four (b b2 b3 b4 : Nat) (toks : List Tok)
    (hb : 0xF0 ≤ b ∧ b < 0xF5) (h2 : isCont b2 = true) (h3 : isCont b3 = true)
    (h4 : isCont b4 = true)
    (hn : 0x10000 ≤ (b - 0xF0) * 0x40000 + (b2 - 0x80) * 0x1000 +
        (b3 - 0x80) * 0x40 + (b4 - 0x80) ∧
      (b - 0xF0) * 0x40000 + (b2 - 0x80) * 0x1000 + (b3 - 0x80) * 0x40 +
        (b4 - 0x80) < 0x110000) :
    decodeStep b (.byte b2 :: .byte b3 :: .byte b4 :: toks) =
      (Char.ofNat ((b - 0xF0) * 0x40000 + (b2 - 0x80) * 0x1000 +
        (b3 - 0x80) * 0x40 + (b4 - 0x80)), toks) := by
  unfold decodeStep
  rw [if_neg (by omega), if_neg (by omega), if_neg (by omega), if_neg (by omega),
    if_pos (by omega)]
  dsimp only
  rw [if_pos (by simp [h2, h3, h4])]
  try dsimp only
  rw [if_pos hn]

theorem decode_utf8_prefix (c : Char) (toks : List Tok) :
    decodeToks ((utf8Bytes c).map Tok.byte ++ toks) = c :: decodeToks toks := by
  have hv := char_valid_nat c
  by_cases h1 : c.toNat < 0x80
  · rw [show utf8Bytes c = [c.toNat] from by simp [utf8Bytes, h1]]
    simp only [List.map_cons, List.map_nil, List.cons_append, List.nil_append]
    rw [decodeToks_byte, decodeStep_one _ h1, Char.ofNat_toNat]
  · by_cases h2 : c.toNat < 0x800
    · rw [show utf8Bytes c = [0xC0 + c.toNat / 0x40, 0x80 + c.toNat % 0x40] from by
        simp [utf8Bytes, h1, h2]]
      simp only [List.map_cons, List.map_nil, List.cons_append, List.nil_append]
      rw [decodeToks_byte,
        decodeStep_two _ _ _ (by omega) (by simp only [isCont, decide_eq_true_eq]; omega)]
      rw [show (0xC0 + c.toNat / 0x40 - 0xC0) * 0x40 + (0x80 + c.toNat % 0x40 - 0x80) =
        c.toNat from by omega, Char.ofNat_toNat]
    · by_cases h3 : c.toNat < 0x10000
      · rw [show utf8Bytes c = [0xE0 + c.toNat / 0x1000, 0x80 + c.toNat / 0x40 % 0x40,
          0x80 + c.toNat % 0x40] from by simp [utf8Bytes, h1, h2, h3]]
        simp only [List.map_cons, List.map_nil, List.cons_append, List.nil_append]
        rw [decodeToks_byte,
          decodeStep_three _ _ _ _ (by omega)
            (by simp only [isCont, decide_eq_true_eq]; omega)
            (by simp only [isCont, decide_eq_true_eq]; omega)
            (by omega)]
        rw [show (0xE0 + c.toNat / 0x1000 - 0xE0) * 0x1000 +
          (0x80 + c.toNat / 0x40 % 0x40 - 0x80) * 0x40 +
          (0x80 + c.toNat % 0x40 - 0x80) = c.toNat from by omega, Char.ofNat_toNat]
      · rw [show utf8Bytes c = [0xF0 + c.toNat / 0x40000, 0x80 + c.toNat / 0x1000 % 0x40,
          0x80 + c.toNat / 0x40 % 0x40, 0x80 + c.toNat % 0x40] from by
          simp [utf8Bytes, h1, h2, h3]]
        simp only [List.map_cons, List.map_nil, List.cons_append, List.nil_append]
        rw [decodeToks_byte,
          decodeStep_four _ _ _ _ _ (by omega)
            (by simp only [isCont, decide_eq_true_eq]; omega)
            (by simp only [isCont, decide_eq_true_eq]; omega)
            (by simp only [isCont, decide_eq_true_eq]; omega)
            (by omega)]
        rw [show (0xF0 + c.toNat / 0x40000 - 0xF0) * 0x40000 +
          (0x80 + c.toNat / 0x1000 % 0x40 - 0x80) * 0x1000 +
          (0x80 + c.toNat / 0x40 % 0x40 - 0x80) * 0x40 +
          (0x80 + c.toNat % 0x40 - 0x80) = c.toNat from by omega, Char.ofNat_toNat]

theorem replacePlus_append (a b : List Char) :
    replacePlus (a ++ b) = replacePlus a ++ replacePlus b := by
  simp [replacePlus]

theorem replacePlus_pctTriple (b : Nat) (hb : b < 256) :
    replacePlus (pctTriple b) = pctTriple b := by
  have h1 := hexDigitChar_ne_plus (b / 16) (by omega)
  have h2 := hexDigitChar_ne_plus (b % 16) (by omega)
  simp [replacePlus, pctTriple, h1, h2]

theorem replacePlus_flatMap (bs : List Nat) (h : ∀ b ∈ bs, b < 256) :
    replacePlus (bs.flatMap pctTriple) = bs.flatMap pctTriple := by
  induction bs with
  | nil => rfl
  | cons b bs ih =>
    simp only [List.flatMap_cons]
    rw [replacePlus_append, replacePlus_pctTriple b (h b (by simp)),
      ih (fun x hx => h x (by simp [hx]))]

theorem alwaysSafe_ne_plus {c : Char} (h : alwaysSafe c = true) : c ≠ '+' := by
  intro he; subst he; exact absurd h (by decide)

theorem alwaysSafe_ne_pct {c : Char} (h : alwaysSafe c = true) : c ≠ '%' := by
  intro he; subst he; exact absurd h (by decide)

theorem decode_encode_chars (cs : List Char) :
    decodeToks (tokenize (replacePlus (cs.flatMap quotePlusChar))) = cs := by
  induction cs with
  | nil =>
    rw [show tokenize (replacePlus ([].flatMap quotePlusChar)) = [] from rfl, decodeToks]
  | cons c cs ih =>
    rw [List.flatMap_cons, replacePlus_append]
    by_cases hsp : c = ' '
    · subst hsp
      rw [show replacePlus (quotePlusChar ' ') = [' '] from rfl, List.singleton_append,
        tokenize_chr ' ' (by decide), decodeToks_chr, ih]
    · by_cases hsafe : alwaysSafe c = true
      · rw [show quotePlusChar c = [c] from by simp [quotePlusChar, hsp, hsafe],
          show replacePlus [c] = [c] from by simp [replacePlus, alwaysSafe_ne_plus hsafe],
          List.singleton_append, tokenize_chr c (alwaysSafe_ne_pct hsafe),
          decodeToks_chr, ih]
      · rw [show quotePlusChar c = (utf8Bytes c).flatMap pctTriple from by
          simp [quotePlusChar, hsp, hsafe]]
        rw [replacePlus_flatMap _ (utf8Bytes_lt c), tokenize_bytes _ (utf8Bytes_lt c),
          decode_utf8_prefix, ih]

theorem unquote_plus_quote_plus (s : String) : unquote_plus (quote_plus s) = s := by
  cases s with
  | mk data => exact congrArg String.mk (decode_encode_chars data)

/-- **C8 (confirmed).** For every credentials/verb/value/zone tuple, the
built URL's query parameters appear in the stable order username, password,
request, object, [selection], value (selection present exactly when a
non-empty zone name is given, object being the literal `Thermostat` from
`invoke` or `Site` from the site-name workers), and the username, password,
value and selection components are percent-encoded by `quote_plus` such that
`unquote_plus` recovers the original string (a round-trip, proved for every
string over full byte-level UTF-8 percent-encoding). -/
theorem claim_C8 (base username password request_type value zone : String)
    (hz : zone ≠ "") :
    build_url base (invokeParams username password request_type value none) =
      base ++ ("?" ++ ("username=" ++ (quote_plus username ++ ("&" ++
        ("password=" ++ (quote_plus password ++ ("&" ++ ("request=" ++
        (quote_plus request_type ++ ("&" ++ ("object=Thermostat&" ++
        ("value=" ++ quote_plus value)))))))))))) ∧
    build_url base (invokeParams username password request_type value (some zone)) =
      base ++ ("?" ++ ("username=" ++ (quote_plus username ++ ("&" ++
        ("password=" ++ (quote_plus password ++ ("&" ++ ("request=" ++
        (quote_plus request_type ++ ("&" ++ ("object=Thermostat&" ++
        ("selection=" ++ (quote_plus ("name:" ++ zone ++ ";") ++ ("&" ++
        ("value=" ++ quote_plus value))))))))))))))) ∧
    build_url base (siteParams username password request_type value) =
      base ++ ("?" ++ ("username=" ++ (quote_plus username ++ ("&" ++
        ("password=" ++ (quote_plus password ++ ("&" ++ ("request=" ++
        (quote_plus request_type ++ ("&" ++ ("object=Site&" ++
        ("value=" ++ quote_plus value)))))))))))) ∧
    unquote_plus (quote_plus username) = username ∧
    unquote_plus (quote_plus password) = password ∧
    unquote_plus (quote_plus value) = value ∧
    unquote_plus (quote_plus ("name:" ++ zone ++ ";")) = "name:" ++ zone ++ ";" := by
  have hT : quote_plus "Thermostat" = "Thermostat" := rfl
  have hS : quote_plus "Site" = "Site" := rfl
  refine ⟨?_, ?_, ?_, unquote_plus_quote_plus _, unquote_plus_quote_plus _,
    unquote_plus_quote_plus _, unquote_plus_quote_plus _⟩
  · simp only [build_url, invokeParams, List.nil_append, List.append_nil,
      List.cons_append, List.map_cons, List.map_nil, strJoin, hT]
    simp [String.append_assoc]
  · simp only [build_url, invokeParams, if_neg hz, List.nil_append, List.append_nil,
      List.cons_append, List.map_cons, List.map_nil, strJoin, hT]
    simp [String.append_assoc]
  · simp only [build_url, siteParams, List.map_cons, List.map_nil, strJoin, hS]
    simp [String.append_assoc]

/-- **C8, witness.** `claim_C8` applied to concrete credentials containing
characters that need quoting (`@`, space, `:`, `;`); the first conjunct also
evaluates the encoder on the concrete password. -/
theorem claim_C8_witness :
    ("Zone 1" : String) ≠ "" ∧
    quote_plus "p w@x" = "p+w%40x" ∧
    unquote_plus (quote_plus "p w@x") = "p w@x" :=
  ⟨by decide, rfl,
   (claim_C8 "https://b/api.cgi" "u@x" "p w@x" "set" "system:Heat;" "Zone 1"
      (by decide)).2.2.2.2.1⟩

end Pelican
